import Mathlib

/-!
# Screen coordination layer (internal/screen/screen.go)

A shallow embedding of the package-level state of the screen package
(backend handle, lock, raw-sequence registry, last fake cursor) and of
the operations on it, followed by the properties proved about them.

The terminal backend (tcell) and the configuration store are external
to the package. They are modelled from the capability surface the
package uses: a bounded grid of cells with get and set, a record of the
calls the backend received, and typed option values.
-/

namespace screen

/-! ## External collaborators -/

/-- Go rune (int32 code point). -/
abbrev Rune := Int

/-- Modelled from the spec: the style value of the backend (type tcell.Style,
declared outside this package): colours and an attribute mask. -/
structure Style where
  fg : Nat
  bg : Nat
  attrs : Nat
deriving DecidableEq

/-- Modelled from the spec: the reverse-video attribute bit of the backend. -/
def AttrReverse : Nat := 4

/-- Modelled from the spec: Style.Reverse of the backend, which switches the
reverse-video attribute on or off and leaves the rest of the style alone. -/
def Style.Reverse (s : Style) (enable : Bool) : Style :=
  if enable then { s with attrs := s.attrs ||| AttrReverse }
  else { s with attrs := s.attrs &&& (s.attrs ^^^ AttrReverse) }

/-- Content of one terminal cell as returned by GetContent: primary rune,
combining runes and style. -/
structure Cell where
  r : Rune
  combc : List Rune
  style : Style
deriving DecidableEq

/-- Content reported for a position outside the grid (all zero values). -/
def Cell.zero : Cell := { r := 0, combc := [], style := { fg := 0, bg := 0, attrs := 0 } }

/-- One raw-sequence call received by the backend. -/
inductive RawCall where
  | register (seq : String)
  | unregister (seq : String)
deriving DecidableEq

/-- Modelled from the spec: the terminal-control backend (interface tcell.Screen,
defined outside this package) as the capability the package consumes: a grid of
w by h cells with get and set, a can-display query, and a record of the lifecycle
and raw-sequence calls it received. -/
structure Backend where
  w : Int
  h : Int
  cells : Int → Int → Cell
  canDisplay : Rune → Bool
  rawCalls : List RawCall
  inited : Bool
  finished : Bool
  paste : Bool
  mouse : Bool
  cursor : Option (Int × Int)

/-- Position (x, y) lies on the grid of the backend. -/
def Backend.inBounds (b : Backend) (x y : Int) : Prop :=
  0 ≤ x ∧ 0 ≤ y ∧ x < b.w ∧ y < b.h

instance (b : Backend) (x y : Int) : Decidable (b.inBounds x y) := by
  unfold Backend.inBounds; infer_instance

/-- Modelled from the spec: get-cell-content of the backend. -/
def Backend.GetContent (b : Backend) (x y : Int) : Cell :=
  if b.inBounds x y then b.cells x y else Cell.zero

/-- Modelled from the spec: set-cell-content of the backend; a position outside
the grid is ignored. -/
def Backend.SetContent (b : Backend) (x y : Int) (mainc : Rune) (combc : List Rune)
    (style : Style) : Backend :=
  if b.inBounds x y then
    { b with cells := fun x' y' =>
        if x' = x ∧ y' = y then { r := mainc, combc := combc, style := style }
        else b.cells x' y' }
  else b

/-- Modelled from the spec: query-can-display-character of the backend. -/
def Backend.CanDisplay (b : Backend) (r : Rune) : Bool := b.canDisplay r

/-- Modelled from the spec: show-native-cursor of the backend. -/
def Backend.ShowCursor (b : Backend) (x y : Int) : Backend :=
  { b with cursor := some (x, y) }

/-- Modelled from the spec: register-raw-sequence of the backend. -/
def Backend.RegisterRawSeq (b : Backend) (r : String) : Backend :=
  { b with rawCalls := b.rawCalls ++ [RawCall.register r] }

/-- Modelled from the spec: unregister-raw-sequence of the backend. -/
def Backend.UnregisterRawSeq (b : Backend) (r : String) : Backend :=
  { b with rawCalls := b.rawCalls ++ [RawCall.unregister r] }

/-- Modelled from the spec: finalize of the backend. -/
def Backend.Fini (b : Backend) : Backend := { b with finished := true }

/-- Modelled from the spec: set-paste-mode of the backend. -/
def Backend.SetPaste (b : Backend) (enable : Bool) : Backend := { b with paste := enable }

/-- Modelled from the spec: enable-mouse of the backend. -/
def Backend.EnableMouse (b : Backend) : Backend := { b with mouse := true }

/-- Modelled from the spec: a backend as construction returns it: not yet
initialized, no call received, every cell blank. -/
def Backend.fresh (w h : Int) (canDisplay : Rune → Bool) : Backend :=
  { w := w, h := h, cells := fun _ _ => Cell.zero, canDisplay := canDisplay,
    rawCalls := [], inited := false, finished := false, paste := false,
    mouse := false, cursor := none }

/-- Modelled from the spec: the named option values of the configuration store
that this package reads. -/
structure Options where
  truecolor : String
  xterm : Bool
  paste : Bool
  mouse : Bool
  fakecursor : Bool

/-- Process environment: variable name to value, none when unset. -/
abbrev Env := String → Option String

/-- Library call os.Getenv: the value, or the empty string when unset. -/
def Getenv (e : Env) (k : String) : String := (e k).getD ""

/-- Library call os.Setenv. -/
def Setenv (e : Env) (k v : String) : Env := fun k' => if k' = k then some v else e k'

/-! ## Package state -/

/-- Snapshot of a cell, as in the source type screenCell. -/
structure screenCell where
  x : Int
  y : Int
  r : Rune
  combc : List Rune
  style : Style
deriving DecidableEq

/-- Ways in which an operation fails to return. -/
inductive Failure where
  | nilScreen
  | indexOutOfRange
  | lockHeld
  | unlockOfUnlocked
deriving DecidableEq

/-- Package-level variables of the screen package together with the globals of
config and util that it reads. RestartCallback is recorded as set or nil, and
restartCalls counts its invocations. drawChan is nil or the number of pending
signals of a channel of capacity 8. -/
structure State where
  Screen : Option Backend
  RestartCallback : Bool
  restartCalls : Nat
  lock : Bool
  drawChan : Option Nat
  rawSeq : List String
  lastCursor : screenCell
  FakeCursor : Bool
  DefStyle : Style
  opts : Options
  env : Env

/-- Lock locks the screen lock. The embedding is sequential: no other task is
modelled that could release a held mutex, so Lock on a held mutex does not
return. -/
def Lock (s : State) : Except Failure State :=
  if s.lock then .error .lockHeld else .ok { s with lock := true }

/-- Unlock unlocks the screen lock. Unlocking a free mutex is a fatal error. -/
def Unlock (s : State) : Except Failure State :=
  if s.lock then .ok { s with lock := false } else .error .unlockOfUnlocked

/-- Redraw schedules a redraw with the draw channel; a full (or nil) channel
takes the default branch of the select. -/
def Redraw (s : State) : State :=
  match s.drawChan with
  | some n => if n < 8 then { s with drawChan := some (n + 1) } else s
  | none => s

/-- DrawChan returns the draw channel. -/
def DrawChan (s : State) : Option Nat := s.drawChan

/-! ## Fake cursor -/

/-- ShowFakeCursor displays a cursor at the given position by modifying the style
of the cell; it restores the cell remembered in lastCursor and then remembers the
new one. A nil Screen is a nil dereference. -/
def ShowFakeCursor (s : State) (x y : Int) : Except Failure State :=
  match s.Screen with
  | none => .error .nilScreen
  | some b =>
    let c := b.GetContent x y
    let b := b.SetContent s.lastCursor.x s.lastCursor.y s.lastCursor.r s.lastCursor.combc
      s.lastCursor.style
    let b := b.SetContent x y c.r c.combc (s.DefStyle.Reverse true)
    .ok { s with
      Screen := some b
      lastCursor := { x := x, y := y, r := c.r, combc := c.combc, style := c.style } }

/-- UseFake: the runtime flag or the fakecursor option. -/
def UseFake (s : State) : Bool := s.FakeCursor || s.opts.fakecursor

/-- ShowFakeCursorMulti draws a fake cursor without touching lastCursor. It passes
nil for the combining runes. -/
def ShowFakeCursorMulti (s : State) (x y : Int) : Except Failure State :=
  match s.Screen with
  | none => .error .nilScreen
  | some b =>
    let c := b.GetContent x y
    .ok { s with Screen := some (b.SetContent x y c.r [] (s.DefStyle.Reverse true)) }

/-- ShowCursor puts the cursor at the given location using a fake cursor if
enabled or using the terminal cursor otherwise. -/
def ShowCursor (s : State) (x y : Int) : Except Failure State :=
  if UseFake s then ShowFakeCursor s x y
  else
    match s.Screen with
    | none => .error .nilScreen
    | some b => .ok { s with Screen := some (b.ShowCursor x y) }

/-- The placeholder U+FFFD written for a rune the backend cannot display. -/
def replacementRune : Rune := 0xFFFD

/-- SetContent sets a cell at a point on the screen and keeps lastCursor in sync
with it. -/
def SetContent (s : State) (x y : Int) (mainc : Rune) (combc : List Rune) (style : Style) :
    Except Failure State :=
  match s.Screen with
  | none => .error .nilScreen
  | some b =>
    let mainc := if !b.CanDisplay mainc then replacementRune else mainc
    let s := { s with Screen := some (b.SetContent x y mainc combc style) }
    if UseFake s ∧ s.lastCursor.x = x ∧ s.lastCursor.y = y then
      .ok { s with lastCursor := { s.lastCursor with r := mainc, style := style, combc := combc } }
    else .ok s

/-! ## Raw-sequence registry -/

/-- RegisterRawSeq registers a raw escape sequence: nothing happens when it is
already in rawSeq; otherwise it is appended and passed to a present backend. -/
def RegisterRawSeq (s : State) (r : String) : State :=
  if s.rawSeq.any (fun seq => seq == r) then s
  else
    let s := { s with rawSeq := s.rawSeq ++ [r] }
    match s.Screen with
    | some b => { s with Screen := some (b.RegisterRawSeq r) }
    | none => s

/-- The range loop of UnregisterRawSeq. The loop visits the indices of the slice
as it was on entry: k iterations remain, i is the current index, arr is the
backing array (shared by the ranged-over slice and rawSeq) and n is the current
length of rawSeq. The assignment to rawSeq[i] panics when i is not below n. -/
def unregisterLoop (r : String) : Nat → Nat → List String → Nat →
    Except Failure (List String × Nat)
  | 0, _, arr, n => .ok (arr, n)
  | k + 1, i, arr, n =>
    match arr[i]? with
    | none => .error .indexOutOfRange
    | some seq =>
      if seq = r then
        if i < n then
          unregisterLoop r k (i + 1) (arr.set i (arr.getD (n - 1) "")) (n - 1)
        else .error .indexOutOfRange
      else unregisterLoop r k (i + 1) arr n

/-- UnregisterRawSeq unregisters a raw escape sequence: swap with last and
truncate in rawSeq, then unregister in a present backend. -/
def UnregisterRawSeq (s : State) (r : String) : Except Failure State :=
  match unregisterLoop r s.rawSeq.length 0 s.rawSeq s.rawSeq.length with
  | .error e => .error e
  | .ok (arr, n) =>
    let s := { s with rawSeq := arr.take n }
    match s.Screen with
    | some b => .ok { s with Screen := some (b.UnregisterRawSeq r) }
    | none => .ok s

/-! ## Lifecycle -/

/-- What a successful backend construction determines: the size of the terminal
and which runes it can display. -/
structure Terminal where
  w : Int
  h : Int
  canDisplay : Rune → Bool

/-- Outcomes of the steps of Init that are decided outside the package: the first
and the fallback call of tcell.NewScreen (none is an error) and whether the
Init method of the constructed backend succeeds. -/
structure InitOutcome where
  first : Option Terminal
  second : Option Terminal
  initOk : Bool

/-- Modelled from the spec: backend construction (tcell.NewScreen) with the
given outcome. -/
def NewScreen (t : Option Terminal) : Option Backend :=
  t.map (fun t => Backend.fresh t.w t.h t.canDisplay)

/-- Errors returned by Init. -/
inductive InitError where
  | construction
  | backendInit
deriving DecidableEq

/-- Local variables of Init that the closure setXterm assigns. -/
structure TermLocals where
  oldTerm : String
  modifiedTerm : Bool

/-- The closure setXterm of Init. -/
def setXterm (e : Env) (_l : TermLocals) : Env × TermLocals :=
  (Setenv e "TERM" "xterm-256color", { oldTerm := Getenv e "TERM", modifiedTerm := true })

/-- Init creates and initializes the backend. It returns the error, if any,
together with the state it leaves behind. Log output is not modelled. -/
def Init (s : State) (o : InitOutcome) : Option InitError × State :=
  let s := { s with drawChan := some 0 }
  let truecolor := s.opts.truecolor
  let e :=
    if truecolor = "on" ∨ (truecolor = "auto" ∧ Getenv s.env "MICRO_TRUECOLOR" = "1") then
      Setenv s.env "TCELL_TRUECOLOR" "enable"
    else if truecolor = "off" then
      Setenv s.env "TCELL_TRUECOLOR" "disable"
    else s.env
  let s := { s with env := e }
  let l : TermLocals := { oldTerm := "", modifiedTerm := false }
  let (e, l) := if s.opts.xterm then setXterm s.env l else (s.env, l)
  let s := { s with env := e }
  let s := { s with Screen := NewScreen o.first }
  let (s, l) :=
    match s.Screen with
    | some _ => (s, l)
    | none =>
      let (e, l) := setXterm s.env l
      let s := { s with env := e }
      ({ s with Screen := NewScreen o.second }, l)
  match s.Screen with
  | none => (some .construction, s)
  | some b =>
    if !o.initOk then (some .backendInit, s)
    else
      let b := { b with inited := true }
      let b := b.SetPaste s.opts.paste
      let s := { s with env := if l.modifiedTerm then Setenv s.env "TERM" l.oldTerm else s.env }
      let b := if s.opts.mouse then b.EnableMouse else b
      let b := s.rawSeq.foldl (fun b r => b.RegisterRawSeq r) b
      (none, { s with Screen := some b })

/-- TempFini shuts the screen down temporarily; it returns whether the backend
was already nil. -/
def TempFini (s : State) : Except Failure (Bool × State) :=
  match s.Screen with
  | none => .ok (true, s)
  | some b =>
    let s := { s with Screen := some b.Fini }
    match Lock s with
    | .error e => .error e
    | .ok s => .ok (false, { s with Screen := none })

/-- TempStart restarts the screen after it was temporarily disabled. The error of
Init is dropped, as in the source. -/
def TempStart (s : State) (screenWasNil : Bool) (o : InitOutcome) : Except Failure State :=
  if !screenWasNil then
    let s := (Init s o).2
    match Unlock s with
    | .error e => .error e
    | .ok s =>
      if s.RestartCallback then .ok { s with restartCalls := s.restartCalls + 1 }
      else .ok s
  else .ok s

/-! ## Concrete states used to exercise the definitions -/

/-- A 3 by 2 grid: the letter A at (0,0) with a combining acute accent, the
letter B elsewhere, all in a plain style. -/
def demoBackend : Backend :=
  { w := 3, h := 2,
    cells := fun x y =>
      if x = 0 ∧ y = 0 then { r := 65, combc := [769], style := { fg := 1, bg := 2, attrs := 0 } }
      else { r := 66, combc := [], style := { fg := 1, bg := 2, attrs := 0 } },
    canDisplay := fun r => decide (r < 128),
    rawCalls := [], inited := true, finished := false, paste := false,
    mouse := false, cursor := none }

/-- A state with the demo grid as backend, an empty registry, the zero value of
lastCursor, the lock free and fake-cursor mode forced on. -/
def demoState : State :=
  { Screen := some demoBackend, RestartCallback := true, restartCalls := 0, lock := false,
    drawChan := some 0, rawSeq := [],
    lastCursor := { x := 0, y := 0, r := 0, combc := [], style := { fg := 0, bg := 0, attrs := 0 } },
    FakeCursor := true, DefStyle := { fg := 7, bg := 0, attrs := 0 },
    opts := { truecolor := "auto", xterm := false, paste := false, mouse := true,
              fakecursor := false },
    env := fun k => if k = "TERM" then some "vt100" else none }

/-- The demo state with lastCursor pointing at the cell (2,1) and remembering the
content of that cell. -/
def demoTracked : State :=
  { demoState with
    lastCursor := { x := 2, y := 1, r := 66, combc := [],
                    style := { fg := 1, bg := 2, attrs := 0 } } }

/-- Content of the cell at (x, y) of the backend of a state, none when the
backend is nil. -/
def cellAt (s : State) (x y : Int) : Option Cell := s.Screen.map (fun b => b.GetContent x y)

/-- Content of the cell at (x, y) after an operation, none when the operation
did not return. -/
def cellAfter (res : Except Failure State) (x y : Int) : Option Cell :=
  match res with
  | .ok s => cellAt s x y
  | .error _ => none

/-! ## Auxiliary definitions used in the statements and proofs -/

/-- The grid that ShowFakeCursor leaves behind. -/
def cursorGrid (b : Backend) (l : screenCell) (d : Style) (x y : Int) : Backend :=
  (b.SetContent l.x l.y l.r l.combc l.style).SetContent x y (b.GetContent x y).r
    (b.GetContent x y).combc (d.Reverse true)

/-- The snapshot that ShowFakeCursor leaves in lastCursor. -/
def cursorSnapshot (b : Backend) (x y : Int) : screenCell :=
  { x := x, y := y, r := (b.GetContent x y).r, combc := (b.GetContent x y).combc,
    style := (b.GetContent x y).style }

/-- The rune SetContent writes for mainc: mainc itself, or the placeholder when
the backend cannot display it. -/
def shownRune (b : Backend) (mainc : Rune) : Rune :=
  if !b.CanDisplay mainc then replacementRune else mainc

/-- The registry after removing slot m by swap with last and truncate. -/
def swapRemove (reg : List String) (m : Nat) : List String :=
  (reg.set m (reg.getD (reg.length - 1) "")).take (reg.length - 1)

/-- What UnregisterRawSeq does after its loop: store the new registry and pass the
call on to a present backend. -/
def unregistered (s : State) (r : String) (reg : List String) : State :=
  match s.Screen with
  | some b => { s with rawSeq := reg, Screen := some (b.UnregisterRawSeq r) }
  | none => { s with rawSeq := reg }

/-- The demo state with three registered sequences. -/
def demoRegistry : State :=
  { demoState with rawSeq := ["\x1b[1;5A", "\x1b[1;5B", "\x1b[1;5C"] }

/-- A call on the registry. -/
inductive RegistryCall where
  | register (seq : String)
  | unregister (seq : String)

/-- The effect of one registry call. -/
def applyCall (s : State) : RegistryCall → Except Failure State
  | .register seq => .ok (RegisterRawSeq s seq)
  | .unregister seq => UnregisterRawSeq s seq

/-- The effect of a sequence of registry calls, first to last. -/
def applyCalls (s : State) : List RegistryCall → Except Failure State
  | [] => .ok s
  | c :: cs =>
    match applyCall s c with
    | .error e => .error e
    | .ok s' => applyCalls s' cs

/-- A state whose backend is nil while the lock is held by someone else. -/
def demoSuspended : State := { demoRegistry with Screen := none, lock := true }

/-- Outcome of Init in which the first construction and the backend Init succeed. -/
def demoOutcome : InitOutcome :=
  { first := some { w := 80, h := 24, canDisplay := fun _ => true }, second := none,
    initOk := true }

/-- The backend Init leaves behind when construction yields terminal t and the
backend Init succeeds: initialized, paste and mouse set from the options, and the
registry replayed. -/
def startedBackend (s : State) (t : Terminal) : Backend :=
  let b := { Backend.fresh t.w t.h t.canDisplay with inited := true }
  let b := b.SetPaste s.opts.paste
  let b := if s.opts.mouse then b.EnableMouse else b
  s.rawSeq.foldl (fun b r => b.RegisterRawSeq r) b

/-- A terminal as construction may yield it. -/
def demoTerminal : Terminal := { w := 80, h := 24, canDisplay := fun _ => true }

/-- The demo state with the xterm option switched on. -/
def demoXterm : State := { demoState with opts := { demoState.opts with xterm := true } }

/-- A sequence of ShowFakeCursor calls, first to last, with no other cell write
in between. -/
def showFakeCursors (s : State) : List (Int × Int) → Except Failure State
  | [] => .ok s
  | p :: ps =>
    match ShowFakeCursor s p.1 p.2 with
    | .error e => .error e
    | .ok s' => showFakeCursors s' ps

/-- The only cell of grid b that may show the style rev is the one lastCursor l
points at, and the style remembered in l is not rev. -/
def SingleCursor (b : Backend) (l : screenCell) (rev : Style) : Prop :=
  l.style ≠ rev ∧ ∀ x y, b.inBounds x y → (b.GetContent x y).style = rev → (x, y) = (l.x, l.y)

/-! ## Laws of the cell grid -/

theorem inBounds_setContent (b : Backend) (x y : Int) (r : Rune) (c : List Rune) (st : Style)
    (x' y' : Int) : (b.SetContent x y r c st).inBounds x' y' ↔ b.inBounds x' y' := by
  unfold Backend.SetContent
  split <;> simp [Backend.inBounds]

theorem getContent_setContent_same (b : Backend) (x y : Int) (r : Rune) (c : List Rune)
    (st : Style) (h : b.inBounds x y) :
    (b.SetContent x y r c st).GetContent x y = { r := r, combc := c, style := st } := by
  have h' := (inBounds_setContent b x y r c st x y).2 h
  unfold Backend.GetContent
  rw [if_pos h']
  unfold Backend.SetContent
  simp [h]

theorem getContent_setContent_other (b : Backend) (x y : Int) (r : Rune) (c : List Rune)
    (st : Style) (x' y' : Int) (hne : (x', y') ≠ (x, y)) :
    (b.SetContent x y r c st).GetContent x' y' = b.GetContent x' y' := by
  have hb := inBounds_setContent b x y r c st x' y'
  have hxy : ¬ (x' = x ∧ y' = y) := fun h => hne (by rw [h.1, h.2])
  unfold Backend.GetContent
  by_cases h' : b.inBounds x' y'
  · rw [if_pos h', if_pos (hb.2 h')]
    unfold Backend.SetContent
    split <;> simp [hxy]
  · rw [if_neg h', if_neg (fun h => h' (hb.1 h))]

/-! ## Fake cursor: moving the primary cursor -/

theorem showFakeCursor_ok (s : State) (b : Backend) (x y : Int) (hs : s.Screen = some b) :
    ShowFakeCursor s x y = .ok { s with
      Screen := some (cursorGrid b s.lastCursor s.DefStyle x y)
      lastCursor := cursorSnapshot b x y } := by
  simp only [ShowFakeCursor, hs, cursorGrid, cursorSnapshot]

theorem inBounds_cursorGrid (b : Backend) (l : screenCell) (d : Style) (x y x' y' : Int) :
    (cursorGrid b l d x y).inBounds x' y' ↔ b.inBounds x' y' := by
  unfold cursorGrid
  rw [inBounds_setContent, inBounds_setContent]

theorem getContent_cursorGrid_same (b : Backend) (l : screenCell) (d : Style) (x y : Int)
    (h : b.inBounds x y) :
    (cursorGrid b l d x y).GetContent x y =
      { r := (b.GetContent x y).r, combc := (b.GetContent x y).combc, style := d.Reverse true } := by
  unfold cursorGrid
  exact getContent_setContent_same _ _ _ _ _ _ ((inBounds_setContent _ _ _ _ _ _ _ _).2 h)

theorem getContent_cursorGrid_last (b : Backend) (l : screenCell) (d : Style) (x y : Int)
    (h : b.inBounds l.x l.y) (hne : (l.x, l.y) ≠ (x, y)) :
    (cursorGrid b l d x y).GetContent l.x l.y = { r := l.r, combc := l.combc, style := l.style } := by
  unfold cursorGrid
  rw [getContent_setContent_other _ _ _ _ _ _ _ _ hne]
  exact getContent_setContent_same _ _ _ _ _ _ h

theorem getContent_cursorGrid_other (b : Backend) (l : screenCell) (d : Style) (x y x' y' : Int)
    (hl : (x', y') ≠ (l.x, l.y)) (hne : (x', y') ≠ (x, y)) :
    (cursorGrid b l d x y).GetContent x' y' = b.GetContent x' y' := by
  unfold cursorGrid
  rw [getContent_setContent_other _ _ _ _ _ _ _ _ hne,
    getContent_setContent_other _ _ _ _ _ _ _ _ hl]

/-- Claim C1, at the input where it fails. On the demo grid the cell (0,0) holds
the letter A with a combining acute accent and lastCursor has its zero value,
which points at (0,0). After ShowFakeCursor(1,0) and then ShowFakeCursor(0,0),
both on the grid, the cell (0,0) holds rune 0 without combining runes in reverse
video: the first call wrote the remembered zero content over it. -/
theorem showFakeCursor_move_overwrites_remembered_cell :
    demoBackend.inBounds 1 0 ∧ demoBackend.inBounds 0 0 ∧
    ((1 : Int), (0 : Int)) ≠ ((0 : Int), (0 : Int)) ∧
    demoBackend.GetContent 0 0
      = { r := 65, combc := [769], style := { fg := 1, bg := 2, attrs := 0 } } ∧
    cellAfter ((ShowFakeCursor demoState 1 0).bind (fun s1 => ShowFakeCursor s1 0 0)) 0 0
      = some { r := 0, combc := [], style := demoState.DefStyle.Reverse true } ∧
    cellAfter ((ShowFakeCursor demoState 1 0).bind (fun s1 => ShowFakeCursor s1 0 0)) 0 0
      ≠ some { r := (demoBackend.GetContent 0 0).r, combc := (demoBackend.GetContent 0 0).combc,
               style := demoState.DefStyle.Reverse true } := by
  decide

/-- Claim C1, amended. For every state with a backend, every value of lastCursor
and every two distinct positions on the grid, ShowFakeCursor at the first and then
at the second position returns; the cell at the first position then holds exactly
the rune, combining runes and style it had before the first call; the cell at the
second position has the style DefStyle.Reverse(true); and whenever the initial
lastCursor does not point at the second position, or remembers the same rune and
combining runes as that cell holds, the cell at the second position holds the rune
and combining runes it had before the first call. -/
theorem showFakeCursor_move_restores (s : State) (b : Backend) (x1 y1 x2 y2 : Int)
    (hs : s.Screen = some b) (h1 : b.inBounds x1 y1) (h2 : b.inBounds x2 y2)
    (hne : (x1, y1) ≠ (x2, y2)) :
    ∃ s1 s2 b2, ShowFakeCursor s x1 y1 = .ok s1 ∧ ShowFakeCursor s1 x2 y2 = .ok s2 ∧
      s2.Screen = some b2 ∧
      b2.GetContent x1 y1 = b.GetContent x1 y1 ∧
      (b2.GetContent x2 y2).style = s.DefStyle.Reverse true ∧
      (((s.lastCursor.x, s.lastCursor.y) = (x2, y2) →
          s.lastCursor.r = (b.GetContent x2 y2).r ∧
          s.lastCursor.combc = (b.GetContent x2 y2).combc) →
        b2.GetContent x2 y2 = { r := (b.GetContent x2 y2).r,
                                combc := (b.GetContent x2 y2).combc,
                                style := s.DefStyle.Reverse true }) := by
  have h1' := (inBounds_cursorGrid b s.lastCursor s.DefStyle x1 y1 x1 y1).2 h1
  have h2' := (inBounds_cursorGrid b s.lastCursor s.DefStyle x1 y1 x2 y2).2 h2
  have hcell := getContent_cursorGrid_same (cursorGrid b s.lastCursor s.DefStyle x1 y1)
    (cursorSnapshot b x1 y1) s.DefStyle x2 y2 h2'
  refine ⟨_, _, _, showFakeCursor_ok s b x1 y1 hs, showFakeCursor_ok _ _ x2 y2 rfl, rfl,
    ?_, ?_, ?_⟩
  · have h := getContent_cursorGrid_last (cursorGrid b s.lastCursor s.DefStyle x1 y1)
      (cursorSnapshot b x1 y1) s.DefStyle x2 y2 h1' hne
    simpa [cursorSnapshot] using h
  · show ((cursorGrid (cursorGrid b s.lastCursor s.DefStyle x1 y1) (cursorSnapshot b x1 y1)
      s.DefStyle x2 y2).GetContent x2 y2).style = s.DefStyle.Reverse true
    rw [hcell]
  · intro hagree
    show (cursorGrid (cursorGrid b s.lastCursor s.DefStyle x1 y1) (cursorSnapshot b x1 y1)
      s.DefStyle x2 y2).GetContent x2 y2 = _
    rw [hcell]
    by_cases hl : (s.lastCursor.x, s.lastCursor.y) = (x2, y2)
    · obtain ⟨hr, hc⟩ := hagree hl
      have hx : s.lastCursor.x = x2 := congrArg Prod.fst hl
      have hy : s.lastCursor.y = y2 := congrArg Prod.snd hl
      have hlin : b.inBounds s.lastCursor.x s.lastCursor.y := by rw [hx, hy]; exact h2
      have hlne : (s.lastCursor.x, s.lastCursor.y) ≠ (x1, y1) := by
        rw [hl]; exact Ne.symm hne
      have h := getContent_cursorGrid_last b s.lastCursor s.DefStyle x1 y1 hlin hlne
      rw [hx, hy] at h
      rw [h, hr, hc]
    · rw [getContent_cursorGrid_other b s.lastCursor s.DefStyle x1 y1 x2 y2
        (fun h => hl h.symm) (Ne.symm hne)]

/-- Instance of the amended C1 on the demo grid with lastCursor pointing at (2,1)
and remembering the letter B that the cell holds: cursor at (0,0), then at (2,1). -/
theorem showFakeCursor_move_restores_witness :
    ∃ s1 s2 b2, ShowFakeCursor demoTracked 0 0 = .ok s1 ∧ ShowFakeCursor s1 2 1 = .ok s2 ∧
      s2.Screen = some b2 ∧
      b2.GetContent 0 0 = demoBackend.GetContent 0 0 ∧
      (b2.GetContent 2 1).style = demoTracked.DefStyle.Reverse true ∧
      b2.GetContent 2 1 = { r := 66, combc := [], style := demoTracked.DefStyle.Reverse true } := by
  obtain ⟨s1, s2, b2, h1, h2, h3, h4, h5, h6⟩ :=
    showFakeCursor_move_restores demoTracked demoBackend 0 0 2 1 rfl (by decide) (by decide)
      (by decide)
  exact ⟨s1, s2, b2, h1, h2, h3, h4, h5, h6 (fun _ => ⟨rfl, rfl⟩)⟩

/-! ## Fake cursor: a write under the cursor -/

theorem canDisplay_setContent (b : Backend) (x y : Int) (r : Rune) (c : List Rune) (st : Style)
    (m : Rune) : (b.SetContent x y r c st).CanDisplay m = b.CanDisplay m := by
  unfold Backend.SetContent Backend.CanDisplay
  split <;> rfl

theorem canDisplay_cursorGrid (b : Backend) (l : screenCell) (d : Style) (x y : Int) (m : Rune) :
    (cursorGrid b l d x y).CanDisplay m = b.CanDisplay m := by
  unfold cursorGrid
  rw [canDisplay_setContent, canDisplay_setContent]

theorem setContent_under_cursor (s : State) (b : Backend) (x y : Int) (mainc : Rune)
    (combc : List Rune) (style : Style) (hs : s.Screen = some b) (hf : UseFake s = true)
    (hx : s.lastCursor.x = x) (hy : s.lastCursor.y = y) :
    SetContent s x y mainc combc style = .ok { s with
      Screen := some (b.SetContent x y (shownRune b mainc) combc style)
      lastCursor := { s.lastCursor with r := shownRune b mainc, style := style, combc := combc } } := by
  have hf' : UseFake { s with Screen := some (b.SetContent x y (shownRune b mainc) combc style) }
      = true := hf
  simp only [SetContent, hs, shownRune] at hf' ⊢
  rw [if_pos ⟨hf', hx, hy⟩]

/-- Claim C2. With fake-cursor mode active, for every position (x, y) on the grid,
every written content and every other position: after ShowFakeCursor(x, y), then
SetContent(x, y, c, combc, style), then ShowFakeCursor at the other position, all
three calls return and the cell at (x, y) holds the content SetContent wrote: c,
or U+FFFD when the backend cannot display c, with combc and style. -/
theorem setContent_then_move_restores_written (s : State) (b : Backend) (x y x' y' : Int)
    (c : Rune) (combc : List Rune) (style : Style)
    (hs : s.Screen = some b) (hf : UseFake s = true) (hin : b.inBounds x y)
    (hne : (x', y') ≠ (x, y)) :
    ∃ s1 s2 s3 b3, ShowFakeCursor s x y = .ok s1 ∧ SetContent s1 x y c combc style = .ok s2 ∧
      ShowFakeCursor s2 x' y' = .ok s3 ∧ s3.Screen = some b3 ∧
      b3.GetContent x y =
        { r := if b.CanDisplay c then c else replacementRune, combc := combc, style := style } := by
  have hin1 := (inBounds_cursorGrid b s.lastCursor s.DefStyle x y x y).2 hin
  have hin2 := (inBounds_setContent (cursorGrid b s.lastCursor s.DefStyle x y) x y
    (shownRune (cursorGrid b s.lastCursor s.DefStyle x y) c) combc style x y).2 hin1
  refine ⟨_, _, _, _, showFakeCursor_ok s b x y hs,
    setContent_under_cursor _ _ x y c combc style rfl hf rfl rfl,
    showFakeCursor_ok _ _ x' y' rfl, rfl, ?_⟩
  have h := getContent_cursorGrid_last
    ((cursorGrid b s.lastCursor s.DefStyle x y).SetContent x y
      (shownRune (cursorGrid b s.lastCursor s.DefStyle x y) c) combc style)
    { cursorSnapshot b x y with
      r := shownRune (cursorGrid b s.lastCursor s.DefStyle x y) c, style := style, combc := combc }
    s.DefStyle x' y' hin2 (Ne.symm hne)
  have hsr : shownRune (cursorGrid b s.lastCursor s.DefStyle x y) c
      = (if b.CanDisplay c then c else replacementRune) := by
    unfold shownRune; rw [canDisplay_cursorGrid]; cases b.CanDisplay c <;> rfl
  rw [← hsr]
  exact h

/-- Instance of C2, the scenario of the spec: cursor at (2,1) over the letter B,
the letter C written there, cursor moved to (1,0). -/
theorem setContent_then_move_restores_written_witness :
    ∃ s1 s2 s3 b3, ShowFakeCursor demoState 2 1 = .ok s1 ∧
      SetContent s1 2 1 67 [] { fg := 3, bg := 0, attrs := 0 } = .ok s2 ∧
      ShowFakeCursor s2 1 0 = .ok s3 ∧ s3.Screen = some b3 ∧
      b3.GetContent 2 1 =
        { r := if demoBackend.CanDisplay 67 then 67 else replacementRune, combc := [],
          style := { fg := 3, bg := 0, attrs := 0 } } :=
  setContent_then_move_restores_written demoState demoBackend 2 1 1 0 67 []
    { fg := 3, bg := 0, attrs := 0 } rfl rfl (by decide) (by decide)

/-! ## Raw-sequence registry: the removal loop -/

theorem nodup_getElem?_inj {l : List String} (hl : l.Nodup) {i j : Nat} {a : String}
    (hi : l[i]? = some a) (hj : l[j]? = some a) : i = j := by
  have hil : i < l.length := (List.getElem?_eq_some.1 hi).1
  have hjl : j < l.length := (List.getElem?_eq_some.1 hj).1
  rcases Nat.lt_trichotomy i j with h | h | h
  · exact absurd (hi.trans hj.symm) (List.nodup_iff_getElem?_ne_getElem?.1 hl i j h hjl)
  · exact h
  · exact absurd (hj.trans hi.symm) (List.nodup_iff_getElem?_ne_getElem?.1 hl j i h hil)

/-- When no remaining slot holds r, the loop runs to its end and changes nothing. -/
theorem unregisterLoop_noMatch (r : String) :
    ∀ (k i : Nat) (arr : List String) (n : Nat), i + k ≤ arr.length →
      (∀ j, i ≤ j → j < i + k → arr[j]? ≠ some r) →
      unregisterLoop r k i arr n = .ok (arr, n) := by
  intro k
  induction k with
  | zero => intro i arr n _ _; rfl
  | succ k ih =>
    intro i arr n hlen hno
    have hi : i < arr.length := by omega
    have hget : arr[i]? = some arr[i] := List.getElem?_eq_getElem hi
    have hne : arr[i] ≠ r := fun h => hno i (Nat.le_refl i) (by omega) (by rw [hget, h])
    unfold unregisterLoop
    rw [hget]
    simp only [hne, if_false]
    exact ih (i + 1) arr n (by omega) (fun j h1 h2 => hno j (by omega) (by omega))

/-- In a duplicate-free array that holds r at index m, the loop started at or
before m removes exactly slot m: it writes the last entry there and shortens the
slice by one, and no later iteration matches. -/
theorem unregisterLoop_found (r : String) (arr : List String) (m : Nat) (hnd : arr.Nodup)
    (hm : arr[m]? = some r) :
    ∀ (k i : Nat), i + k = arr.length → i ≤ m →
      unregisterLoop r k i arr arr.length =
        .ok (arr.set m (arr.getD (arr.length - 1) ""), arr.length - 1) := by
  have hml : m < arr.length := (List.getElem?_eq_some.1 hm).1
  intro k
  induction k with
  | zero => intro i hlen him; omega
  | succ k ih =>
    intro i hlen him
    have hi : i < arr.length := by omega
    have hget : arr[i]? = some arr[i] := List.getElem?_eq_getElem hi
    unfold unregisterLoop
    rw [hget]
    by_cases heq : arr[i] = r
    · have him' : i = m := nodup_getElem?_inj hnd (by rw [hget, heq]) hm
      subst him'
      simp only [heq, if_true, hi]
      apply unregisterLoop_noMatch
      · rw [List.length_set]; omega
      · intro j h1 h2 hj
        rw [List.getElem?_set_ne (by omega)] at hj
        have := nodup_getElem?_inj hnd hj hm
        omega
    · simp only [heq, if_false]
      have hne : i ≠ m := fun h => heq (by
        subst h
        rw [hget] at hm
        exact Option.some.inj hm)
      exact ih (i + 1) (by omega) (by omega)

theorem getElem?_swapRemove (reg : List String) (m j : Nat) (hm : m < reg.length) :
    (swapRemove reg m)[j]? =
      if j < reg.length - 1 then (if j = m then reg[reg.length - 1]? else reg[j]?) else none := by
  unfold swapRemove
  rw [List.getElem?_take, List.getElem?_set]
  by_cases hj : j < reg.length - 1
  · rw [if_pos hj, if_pos hj]
    by_cases hjm : j = m
    · subst hjm
      have hl : reg.length - 1 < reg.length := by omega
      rw [if_pos rfl, if_pos rfl, if_pos hm, List.getD_eq_getElem?_getD,
        List.getElem?_eq_getElem hl]
      rfl
    · rw [if_neg hjm, if_neg (fun h => hjm h.symm)]
  · rw [if_neg hj, if_neg hj]

theorem length_swapRemove (reg : List String) (m : Nat) :
    (swapRemove reg m).length = reg.length - 1 := by
  unfold swapRemove
  rw [List.length_take, List.length_set]
  omega

theorem mem_swapRemove (reg : List String) (m : Nat) (r : String) (hnd : reg.Nodup)
    (hm : reg[m]? = some r) (e : String) : e ∈ swapRemove reg m ↔ e ∈ reg ∧ e ≠ r := by
  have hml : m < reg.length := (List.getElem?_eq_some.1 hm).1
  constructor
  · intro he
    obtain ⟨j, hj⟩ := List.mem_iff_getElem?.1 he
    rw [getElem?_swapRemove reg m j hml] at hj
    by_cases hjl : j < reg.length - 1
    · rw [if_pos hjl] at hj
      by_cases hjm : j = m
      · rw [if_pos hjm] at hj
        refine ⟨List.mem_iff_getElem?.2 ⟨_, hj⟩, fun her => ?_⟩
        have := nodup_getElem?_inj hnd (her ▸ hj) hm
        omega
      · rw [if_neg hjm] at hj
        refine ⟨List.mem_iff_getElem?.2 ⟨_, hj⟩, fun her => ?_⟩
        exact hjm (nodup_getElem?_inj hnd (her ▸ hj) hm)
    · rw [if_neg hjl] at hj
      exact absurd hj (by simp)
  · rintro ⟨he, her⟩
    obtain ⟨j, hj⟩ := List.mem_iff_getElem?.1 he
    have hjl : j < reg.length := (List.getElem?_eq_some.1 hj).1
    have hjm : j ≠ m := fun h => her (by
      subst h
      rw [hj] at hm
      exact Option.some.inj hm)
    apply List.mem_iff_getElem?.2
    by_cases hlast : j < reg.length - 1
    · refine ⟨j, ?_⟩
      rw [getElem?_swapRemove reg m j hml, if_pos hlast, if_neg hjm]
      exact hj
    · refine ⟨m, ?_⟩
      have hjeq : j = reg.length - 1 := by omega
      have hmlt : m < reg.length - 1 := by omega
      rw [getElem?_swapRemove reg m m hml, if_pos hmlt, if_pos rfl, ← hjeq]
      exact hj

theorem nodup_swapRemove (reg : List String) (m : Nat) (hnd : reg.Nodup)
    (hml : m < reg.length) : (swapRemove reg m).Nodup := by
  rw [List.nodup_iff_getElem?_ne_getElem?]
  intro i j hij hj heq
  rw [length_swapRemove] at hj
  have hi : i < reg.length - 1 := by omega
  rw [getElem?_swapRemove reg m i hml, getElem?_swapRemove reg m j hml, if_pos hi, if_pos hj] at heq
  have key : ∀ a b : Nat, a < reg.length → b < reg.length → reg[a]? = reg[b]? → a = b := by
    intro a b ha hb hab
    exact nodup_getElem?_inj hnd (List.getElem?_eq_getElem ha)
      (hab ▸ List.getElem?_eq_getElem ha)
  by_cases him : i = m
  · rw [if_pos him] at heq
    by_cases hjm : j = m
    · omega
    · rw [if_neg hjm] at heq
      have := key _ _ (by omega) (by omega) heq
      omega
  · rw [if_neg him] at heq
    by_cases hjm : j = m
    · rw [if_pos hjm] at heq
      have := key _ _ (by omega) (by omega) heq
      omega
    · rw [if_neg hjm] at heq
      have := key _ _ (by omega) (by omega) heq
      omega

theorem unregisterRawSeq_of_loop (s : State) (r : String) (arr : List String) (n : Nat)
    (h : unregisterLoop r s.rawSeq.length 0 s.rawSeq s.rawSeq.length = .ok (arr, n)) :
    UnregisterRawSeq s r = .ok (unregistered s r (arr.take n)) := by
  unfold UnregisterRawSeq unregistered
  rw [h]
  cases hs : s.Screen <;> simp [hs]

theorem unregisterRawSeq_present (s : State) (r : String) (m : Nat) (hnd : s.rawSeq.Nodup)
    (hm : s.rawSeq[m]? = some r) :
    UnregisterRawSeq s r = .ok (unregistered s r (swapRemove s.rawSeq m)) :=
  unregisterRawSeq_of_loop s r _ _
    (unregisterLoop_found r s.rawSeq m hnd hm s.rawSeq.length 0 (by omega) (Nat.zero_le m))

theorem unregisterRawSeq_absent (s : State) (r : String) (hr : r ∉ s.rawSeq) :
    UnregisterRawSeq s r = .ok (unregistered s r s.rawSeq) := by
  have h := unregisterRawSeq_of_loop s r s.rawSeq s.rawSeq.length
    (unregisterLoop_noMatch r s.rawSeq.length 0 s.rawSeq s.rawSeq.length (by omega)
      (fun j _ _ hj => hr (List.mem_iff_getElem?.2 ⟨j, hj⟩)))
  rw [List.take_length] at h
  exact h

theorem rawSeq_unregistered (s : State) (r : String) (reg : List String) :
    (unregistered s r reg).rawSeq = reg := by
  unfold unregistered
  cases s.Screen <;> rfl

theorem swapRemove_eq_dropLast (reg : List String) (m : Nat) :
    swapRemove reg m = (reg.set m (reg.getLastD "")).dropLast := by
  unfold swapRemove
  rw [List.dropLast_eq_take, List.length_set, List.getD_eq_getElem?_getD,
    List.getLastD_eq_getLast?, List.getLast?_eq_getElem?]

/-- Claim C4. For every state with a duplicate-free registry and every seq,
UnregisterRawSeq(seq) returns; if seq is present at index i the new registry is the
old one with entry i replaced by the former last entry and the last slot dropped,
seq is absent from it and every other entry is present in it exactly once (and it
has no further entries); if seq is absent the registry is unchanged. -/
theorem unregisterRawSeq_swap_with_last (s : State) (seq : String) (hnd : s.rawSeq.Nodup) :
    ∃ s', UnregisterRawSeq s seq = .ok s' ∧
      (∀ i, s.rawSeq[i]? = some seq →
        s'.rawSeq = (s.rawSeq.set i (s.rawSeq.getLastD "")).dropLast) ∧
      (seq ∈ s.rawSeq → seq ∉ s'.rawSeq ∧
        (∀ e, e ∈ s.rawSeq → e ≠ seq → s'.rawSeq.count e = 1) ∧
        (∀ e, e ∈ s'.rawSeq → e ∈ s.rawSeq) ∧
        s'.rawSeq.length + 1 = s.rawSeq.length) ∧
      (seq ∉ s.rawSeq → s'.rawSeq = s.rawSeq) := by
  by_cases hmem : seq ∈ s.rawSeq
  · obtain ⟨m, hm⟩ := List.mem_iff_getElem?.1 hmem
    have hml : m < s.rawSeq.length := (List.getElem?_eq_some.1 hm).1
    refine ⟨_, unregisterRawSeq_present s seq m hnd hm, ?_, ?_, fun h => absurd hmem h⟩
    · intro i hi
      rw [rawSeq_unregistered, nodup_getElem?_inj hnd hi hm, swapRemove_eq_dropLast]
    · intro _
      rw [rawSeq_unregistered]
      refine ⟨fun h => ((mem_swapRemove s.rawSeq m seq hnd hm seq).1 h).2 rfl, ?_, ?_, ?_⟩
      · intro e he hne
        exact List.count_eq_one_of_mem (nodup_swapRemove s.rawSeq m hnd hml)
          ((mem_swapRemove s.rawSeq m seq hnd hm e).2 ⟨he, hne⟩)
      · intro e he
        exact ((mem_swapRemove s.rawSeq m seq hnd hm e).1 he).1
      · rw [length_swapRemove]; omega
  · refine ⟨_, unregisterRawSeq_absent s seq hmem, ?_, fun h => absurd h hmem, fun _ => ?_⟩
    · intro i hi
      exact absurd (List.mem_iff_getElem?.2 ⟨i, hi⟩) hmem
    · rw [rawSeq_unregistered]

/-- Instance of C4: removing the first of three registered sequences. -/
theorem unregisterRawSeq_swap_with_last_witness :
    ∃ s', UnregisterRawSeq demoRegistry "\x1b[1;5A" = .ok s' ∧
      (∀ i, demoRegistry.rawSeq[i]? = some "\x1b[1;5A" →
        s'.rawSeq = (demoRegistry.rawSeq.set i (demoRegistry.rawSeq.getLastD "")).dropLast) ∧
      ("\x1b[1;5A" ∈ demoRegistry.rawSeq → "\x1b[1;5A" ∉ s'.rawSeq ∧
        (∀ e, e ∈ demoRegistry.rawSeq → e ≠ "\x1b[1;5A" → s'.rawSeq.count e = 1) ∧
        (∀ e, e ∈ s'.rawSeq → e ∈ demoRegistry.rawSeq) ∧
        s'.rawSeq.length + 1 = demoRegistry.rawSeq.length) ∧
      ("\x1b[1;5A" ∉ demoRegistry.rawSeq → s'.rawSeq = demoRegistry.rawSeq) :=
  unregisterRawSeq_swap_with_last demoRegistry "\x1b[1;5A" (by decide)

/-- The registry of the instance above after the removal: the former last entry
now stands first. -/
theorem unregisterRawSeq_demo :
    (UnregisterRawSeq demoRegistry "\x1b[1;5A").toOption.map (fun s => s.rawSeq)
      = some ["\x1b[1;5C", "\x1b[1;5B"] := by
  decide

/-- On a registry with a repeated entry the loop does index rawSeq out of range:
the second iteration matches again after the slice was cut to length one. -/
theorem unregisterLoop_duplicate_panics :
    unregisterLoop "a" 2 0 ["a", "a"] 2 = .error .indexOutOfRange := by
  rfl

/-- Claim C10. For every duplicate-free registry and every seq the loop of
UnregisterRawSeq, which ranges over the slice as it was on entry, completes all
its iterations without indexing rawSeq out of range, at most one iteration matches
(the slice shrinks by at most one, and by exactly one when seq is present), and
UnregisterRawSeq returns. -/
theorem unregisterRawSeq_no_panic (s : State) (seq : String) (hnd : s.rawSeq.Nodup) :
    (∃ arr n, unregisterLoop seq s.rawSeq.length 0 s.rawSeq s.rawSeq.length = .ok (arr, n) ∧
      arr.length = s.rawSeq.length ∧
      n = s.rawSeq.length - (if seq ∈ s.rawSeq then 1 else 0)) ∧
    ∃ s', UnregisterRawSeq s seq = .ok s' := by
  by_cases hmem : seq ∈ s.rawSeq
  · obtain ⟨m, hm⟩ := List.mem_iff_getElem?.1 hmem
    exact ⟨⟨_, _, unregisterLoop_found seq s.rawSeq m hnd hm s.rawSeq.length 0 (by omega)
      (Nat.zero_le m), by rw [List.length_set], by rw [if_pos hmem]⟩,
      _, unregisterRawSeq_present s seq m hnd hm⟩
  · exact ⟨⟨_, _, unregisterLoop_noMatch seq s.rawSeq.length 0 s.rawSeq s.rawSeq.length
      (by omega) (fun j _ _ hj => hmem (List.mem_iff_getElem?.2 ⟨j, hj⟩)), rfl,
      by rw [if_neg hmem]; rfl⟩, _, unregisterRawSeq_absent s seq hmem⟩

/-- Instance of C10: removing the first of three entries, so that the last
iteration reads the stale copy of the former last entry. -/
theorem unregisterRawSeq_no_panic_witness :
    (∃ arr n, unregisterLoop "\x1b[1;5A" demoRegistry.rawSeq.length 0 demoRegistry.rawSeq
        demoRegistry.rawSeq.length = .ok (arr, n) ∧
      arr.length = demoRegistry.rawSeq.length ∧
      n = demoRegistry.rawSeq.length - (if "\x1b[1;5A" ∈ demoRegistry.rawSeq then 1 else 0)) ∧
    ∃ s', UnregisterRawSeq demoRegistry "\x1b[1;5A" = .ok s' :=
  unregisterRawSeq_no_panic demoRegistry "\x1b[1;5A" (by decide)

/-! ## Raw-sequence registry: no two entries are equal -/

theorem registerRawSeq_of_mem (s : State) (r : String) (h : r ∈ s.rawSeq) :
    RegisterRawSeq s r = s := by
  unfold RegisterRawSeq
  rw [if_pos (List.any_eq_true.2 ⟨r, h, by simp⟩)]

theorem rawSeq_registerRawSeq_of_not_mem (s : State) (r : String) (h : r ∉ s.rawSeq) :
    (RegisterRawSeq s r).rawSeq = s.rawSeq ++ [r] := by
  unfold RegisterRawSeq
  have hany : ¬ (s.rawSeq.any (fun seq => seq == r) = true) := by
    intro ha
    obtain ⟨x, hx, hxr⟩ := List.any_eq_true.1 ha
    have hx' : x = r := by simpa using hxr
    exact h (hx' ▸ hx)
  rw [if_neg hany]
  cases hs : s.Screen <;> simp [hs]

theorem mem_rawSeq_registerRawSeq (s : State) (r : String) : r ∈ (RegisterRawSeq s r).rawSeq := by
  by_cases h : r ∈ s.rawSeq
  · rw [registerRawSeq_of_mem s r h]; exact h
  · rw [rawSeq_registerRawSeq_of_not_mem s r h]; simp

theorem nodup_registerRawSeq (s : State) (r : String) (hnd : s.rawSeq.Nodup) :
    (RegisterRawSeq s r).rawSeq.Nodup := by
  by_cases h : r ∈ s.rawSeq
  · rw [registerRawSeq_of_mem s r h]; exact hnd
  · rw [rawSeq_registerRawSeq_of_not_mem s r h]
    exact List.Nodup.append hnd (List.nodup_singleton r) (by simpa using h)

theorem nodup_unregisterRawSeq (s s' : State) (r : String) (hnd : s.rawSeq.Nodup)
    (h : UnregisterRawSeq s r = .ok s') : s'.rawSeq.Nodup := by
  by_cases hmem : r ∈ s.rawSeq
  · obtain ⟨m, hm⟩ := List.mem_iff_getElem?.1 hmem
    rw [unregisterRawSeq_present s r m hnd hm] at h
    cases h
    rw [rawSeq_unregistered]
    exact nodup_swapRemove s.rawSeq m hnd (List.getElem?_eq_some.1 hm).1
  · rw [unregisterRawSeq_absent s r hmem] at h
    cases h
    rw [rawSeq_unregistered]
    exact hnd

theorem applyCalls_nodup (cs : List RegistryCall) :
    ∀ s : State, s.rawSeq.Nodup → ∃ s', applyCalls s cs = .ok s' ∧ s'.rawSeq.Nodup := by
  induction cs with
  | nil => intro s h; exact ⟨s, rfl, h⟩
  | cons c cs ih =>
    intro s h
    cases c with
    | register seq =>
      obtain ⟨s', hs', hnd'⟩ := ih (RegisterRawSeq s seq) (nodup_registerRawSeq s seq h)
      exact ⟨s', by simpa [applyCalls, applyCall] using hs', hnd'⟩
    | unregister seq =>
      obtain ⟨s1, h1⟩ : ∃ s1, UnregisterRawSeq s seq = .ok s1 := by
        by_cases hmem : seq ∈ s.rawSeq
        · obtain ⟨m, hm⟩ := List.mem_iff_getElem?.1 hmem
          exact ⟨_, unregisterRawSeq_present s seq m h hm⟩
        · exact ⟨_, unregisterRawSeq_absent s seq hmem⟩
      obtain ⟨s', hs', hnd'⟩ := ih s1 (nodup_unregisterRawSeq s s1 seq h h1)
      exact ⟨s', by simpa [applyCalls, applyCall, h1] using hs', hnd'⟩

/-- Claim C3. From every state with an empty registry, every sequence of
RegisterRawSeq and UnregisterRawSeq calls returns and leaves a registry whose
entries are pairwise distinct; and in every state so reached, for every seq, after
RegisterRawSeq(seq) the registry holds seq exactly once, and a second
RegisterRawSeq(seq) leaves the whole state (registry and backend) as the first
call left it. -/
theorem registry_never_holds_duplicates (s0 : State) (calls : List RegistryCall)
    (h0 : s0.rawSeq = []) :
    ∃ s, applyCalls s0 calls = .ok s ∧ s.rawSeq.Nodup ∧
      ∀ seq, (RegisterRawSeq s seq).rawSeq.count seq = 1 ∧
        RegisterRawSeq (RegisterRawSeq s seq) seq = RegisterRawSeq s seq ∧
        (RegisterRawSeq (RegisterRawSeq s seq) seq).rawSeq.count seq = 1 := by
  obtain ⟨s, hs, hnd⟩ := applyCalls_nodup calls s0 (by rw [h0]; exact List.nodup_nil)
  refine ⟨s, hs, hnd, fun seq => ?_⟩
  have h1 : (RegisterRawSeq s seq).rawSeq.count seq = 1 :=
    List.count_eq_one_of_mem (nodup_registerRawSeq s seq hnd) (mem_rawSeq_registerRawSeq s seq)
  have h2 := registerRawSeq_of_mem (RegisterRawSeq s seq) seq (mem_rawSeq_registerRawSeq s seq)
  exact ⟨h1, h2, by rw [h2]; exact h1⟩

/-- Instance of C3: register two sequences, register the first again, remove it,
register it once more. -/
theorem registry_never_holds_duplicates_witness :
    ∃ s, applyCalls demoState [.register "\x1b[1;5A", .register "\x1b[1;5B",
        .register "\x1b[1;5A", .unregister "\x1b[1;5A", .register "\x1b[1;5A"] = .ok s ∧
      s.rawSeq.Nodup ∧
      ∀ seq, (RegisterRawSeq s seq).rawSeq.count seq = 1 ∧
        RegisterRawSeq (RegisterRawSeq s seq) seq = RegisterRawSeq s seq ∧
        (RegisterRawSeq (RegisterRawSeq s seq) seq).rawSeq.count seq = 1 :=
  registry_never_holds_duplicates demoState _ rfl

/-- The registry and the calls the backend received in the instance above. -/
theorem registry_demo_run :
    (applyCalls demoState [.register "\x1b[1;5A", .register "\x1b[1;5B",
        .register "\x1b[1;5A", .unregister "\x1b[1;5A", .register "\x1b[1;5A"]).toOption.map
      (fun s => (s.rawSeq, s.Screen.map (fun b => b.rawCalls)))
      = some (["\x1b[1;5B", "\x1b[1;5A"],
          some [.register "\x1b[1;5A", .register "\x1b[1;5B", .unregister "\x1b[1;5A",
            .register "\x1b[1;5A"]) := by
  decide

/-! ## Lifecycle: suspend and resume -/

/-- Claim C6. TempFini returns true exactly when the backend handle was nil on
entry (with a backend and a free lock it returns false). When the handle is nil,
TempFini returns true and leaves the whole state as it was (handle nil, lock
untouched, registry and lastCursor unchanged); TempStart(true) returns and leaves
the whole state as it was (no Init, no Unlock, no restart callback); so TempFini
followed by TempStart of its result is the identity on the state. -/
theorem tempFini_tempStart_absent_backend (s : State) (o : InitOutcome) :
    (∀ r s', TempFini s = .ok (r, s') → (r = true ↔ s.Screen = none)) ∧
    (s.Screen ≠ none → s.lock = false → ∃ s', TempFini s = .ok (false, s')) ∧
    TempStart s true o = .ok s ∧
    (s.Screen = none →
      TempFini s = .ok (true, s) ∧
      (match TempFini s with
        | .ok (r, s') => TempStart s' r o
        | .error e => .error e) = .ok s) := by
  refine ⟨?_, ?_, rfl, ?_⟩
  · intro r s' h
    cases hs : s.Screen with
    | none =>
      simp only [TempFini, hs] at h
      cases h
      simp
    | some b =>
      simp only [TempFini, hs, Lock] at h
      by_cases hl : s.lock = true
      · simp [hl] at h
      · simp only [hl] at h
        cases h
        simp
  · intro hs hl
    cases hb : s.Screen with
    | none => exact absurd hb hs
    | some b => exact ⟨{ s with Screen := none, lock := true }, by simp [TempFini, hb, Lock, hl]⟩
  · intro hs
    have h : TempFini s = .ok (true, s) := by simp only [TempFini, hs]
    refine ⟨h, ?_⟩
    rw [h]
    rfl

/-- Instance of C6 on a state with a nil backend and the lock held. -/
theorem tempFini_tempStart_absent_backend_witness :
    demoSuspended.Screen = none ∧
    TempFini demoSuspended = .ok (true, demoSuspended) ∧
    (match TempFini demoSuspended with
      | .ok (r, s') => TempStart s' r demoOutcome
      | .error e => .error e) = .ok demoSuspended :=
  ⟨rfl, (tempFini_tempStart_absent_backend demoSuspended demoOutcome).2.2.2 rfl⟩

theorem foldl_registerRawSeq (l : List String) :
    ∀ b : Backend, (l.foldl (fun b r => b.RegisterRawSeq r) b).rawCalls
        = b.rawCalls ++ l.map RawCall.register ∧
      (l.foldl (fun b r => b.RegisterRawSeq r) b).inited = b.inited ∧
      (l.foldl (fun b r => b.RegisterRawSeq r) b).finished = b.finished := by
  induction l with
  | nil => intro b; simp
  | cons a l ih =>
    intro b
    obtain ⟨h1, h2, h3⟩ := ih (b.RegisterRawSeq a)
    simp only [List.foldl_cons, List.map_cons]
    rw [h1, h2, h3]
    simp [Backend.RegisterRawSeq]

theorem startedBackend_spec (s : State) (t : Terminal) :
    (startedBackend s t).rawCalls = s.rawSeq.map RawCall.register ∧
    (startedBackend s t).inited = true ∧ (startedBackend s t).finished = false := by
  unfold startedBackend
  obtain ⟨h1, h2, h3⟩ := foldl_registerRawSeq s.rawSeq
    (if s.opts.mouse then
      (({ Backend.fresh t.w t.h t.canDisplay with inited := true }).SetPaste
        s.opts.paste).EnableMouse
    else ({ Backend.fresh t.w t.h t.canDisplay with inited := true }).SetPaste s.opts.paste)
  refine ⟨?_, ?_, ?_⟩
  · rw [h1]; cases s.opts.mouse <;> simp [Backend.fresh, Backend.SetPaste, Backend.EnableMouse]
  · rw [h2]; cases s.opts.mouse <;> simp [Backend.fresh, Backend.SetPaste, Backend.EnableMouse]
  · rw [h3]; cases s.opts.mouse <;> simp [Backend.fresh, Backend.SetPaste, Backend.EnableMouse]

/-- Init never touches the lock, the registry, the restart callback or its call
count, whatever the outcome. -/
theorem init_frame (s : State) (o : InitOutcome) :
    (Init s o).2.lock = s.lock ∧ (Init s o).2.rawSeq = s.rawSeq ∧
    (Init s o).2.RestartCallback = s.RestartCallback ∧
    (Init s o).2.restartCalls = s.restartCalls := by
  obtain ⟨scr, cb, rc, lk, dc, rs, lc, fc, ds, ⟨tc, xt, pa, mo, fk⟩, env⟩ := s
  obtain ⟨f, sec, ok⟩ := o
  cases f <;> cases sec <;> cases ok <;> cases xt <;> simp [Init, NewScreen, setXterm]

theorem init_success (s : State) (o : InitOutcome) (t : Terminal)
    (hcons : o.first = some t ∨ (o.first = none ∧ o.second = some t))
    (hinit : o.initOk = true) :
    (Init s o).1 = none ∧ (Init s o).2.Screen = some (startedBackend s t) := by
  obtain ⟨scr, cb, rc, lk, dc, rs, lc, fc, ds, ⟨tc, xt, pa, mo, fk⟩, env⟩ := s
  obtain ⟨f, sec, ok⟩ := o
  simp only at hcons hinit
  subst hinit
  rcases hcons with h | ⟨h1, h2⟩
  · subst h
    cases xt <;> simp [Init, NewScreen, setXterm, startedBackend]
  · subst h1 h2
    cases xt <;> simp [Init, NewScreen, setXterm, startedBackend]

/-- Claim C5. For every state with an active backend, a duplicate-free registry and
the lock free on entry, and every outcome in which backend construction (at the
first attempt or at the fallback) and backend initialization succeed: TempFini
returns false, leaving the handle nil and the lock held; TempStart(false) then
returns with a non-nil, initialized backend, the lock released, the registry
unchanged, the new backend having received exactly one RegisterRawSeq call for each
registry entry, in registry order, and the restart callback, if set, invoked
exactly once. -/
theorem tempFini_tempStart_restores_backend (s : State) (b : Backend) (o : InitOutcome)
    (t : Terminal) (hs : s.Screen = some b) (hnd : s.rawSeq.Nodup) (hlock : s.lock = false)
    (hcons : o.first = some t ∨ (o.first = none ∧ o.second = some t))
    (hinit : o.initOk = true) :
    ∃ s1 s2 b2, TempFini s = .ok (false, s1) ∧ s1.Screen = none ∧ s1.lock = true ∧
      TempStart s1 false o = .ok s2 ∧ s2.Screen = some b2 ∧
      b2.inited = true ∧ b2.finished = false ∧ s2.lock = false ∧ s2.rawSeq = s.rawSeq ∧
      b2.rawCalls = s.rawSeq.map RawCall.register ∧
      (∀ seq, seq ∈ s.rawSeq → b2.rawCalls.count (RawCall.register seq) = 1) ∧
      s2.restartCalls = s.restartCalls + (if s.RestartCallback then 1 else 0) := by
  have hfini : TempFini s = .ok (false, { s with Screen := none, lock := true }) := by
    simp [TempFini, hs, Lock, hlock]
  obtain ⟨hl, hr, hcb, hrc⟩ := init_frame { s with Screen := none, lock := true } o
  obtain ⟨_, hscr⟩ := init_success { s with Screen := none, lock := true } o t hcons hinit
  obtain ⟨hcalls, hin, hfin⟩ := startedBackend_spec { s with Screen := none, lock := true } t
  have hun : Unlock (Init { s with Screen := none, lock := true } o).2
      = .ok { (Init { s with Screen := none, lock := true } o).2 with lock := false } := by
    unfold Unlock
    rw [hl]
    rfl
  have hcount : ∀ seq, seq ∈ s.rawSeq →
      (s.rawSeq.map RawCall.register).count (RawCall.register seq) = 1 := by
    intro seq hseq
    apply List.count_eq_one_of_mem
    · exact hnd.map (fun a c h => by cases h; rfl)
    · exact List.mem_map.2 ⟨seq, hseq, rfl⟩
  cases hcbv : s.RestartCallback with
  | false =>
    refine ⟨_, { (Init { s with Screen := none, lock := true } o).2 with lock := false },
      startedBackend { s with Screen := none, lock := true } t, hfini, rfl, rfl, ?_, hscr,
      hin, hfin, rfl, hr, hcalls, ?_, ?_⟩
    · have hcb' : (Init { s with Screen := none, lock := true } o).2.RestartCallback = false := by
        rw [hcb]; exact hcbv
      simp [TempStart, hun, hcb']
    · rw [hcalls]; exact hcount
    · simpa using hrc
  | true =>
    refine ⟨_, { (Init { s with Screen := none, lock := true } o).2 with
        lock := false, restartCalls := s.restartCalls + 1 },
      startedBackend { s with Screen := none, lock := true } t, hfini, rfl, rfl, ?_, hscr,
      hin, hfin, rfl, hr, hcalls, ?_, ?_⟩
    · have hcb' : (Init { s with Screen := none, lock := true } o).2.RestartCallback = true := by
        rw [hcb]; exact hcbv
      have hrc' : (Init { s with Screen := none, lock := true } o).2.restartCalls
          = s.restartCalls := hrc
      simp [TempStart, hun, hcb', hrc']
    · rw [hcalls]; exact hcount
    · simp

/-- Instance of C5, after the scenario of the spec: three registered sequences,
the restart callback set, the first construction succeeding. -/
theorem tempFini_tempStart_restores_backend_witness :
    ∃ s1 s2 b2, TempFini demoRegistry = .ok (false, s1) ∧ s1.Screen = none ∧ s1.lock = true ∧
      TempStart s1 false demoOutcome = .ok s2 ∧ s2.Screen = some b2 ∧
      b2.inited = true ∧ b2.finished = false ∧ s2.lock = false ∧
      s2.rawSeq = demoRegistry.rawSeq ∧
      b2.rawCalls = demoRegistry.rawSeq.map RawCall.register ∧
      (∀ seq, seq ∈ demoRegistry.rawSeq → b2.rawCalls.count (RawCall.register seq) = 1) ∧
      s2.restartCalls = demoRegistry.restartCalls + (if demoRegistry.RestartCallback then 1 else 0) :=
  tempFini_tempStart_restores_backend demoRegistry demoBackend demoOutcome
    { w := 80, h := 24, canDisplay := fun _ => true } rfl (by decide) rfl (Or.inl rfl) rfl

/-! ## Init and the TERM variable -/

theorem setenv_apply (e : Env) (k v k' : String) :
    Setenv e k v k' = if k' = k then some v else e k' := rfl

/-- When the first construction and the backend Init succeed, TERM reads the same
after Init as before it. -/
theorem init_restores_TERM_on_first_success (s : State) (o : InitOutcome) (t : Terminal)
    (hfirst : o.first = some t) (hinit : o.initOk = true) :
    (Init s o).1 = none ∧ Getenv (Init s o).2.env "TERM" = Getenv s.env "TERM" := by
  obtain ⟨scr, cb, rc, lk, dc, rs, lc, fc, ds, ⟨tc, xt, pa, mo, fk⟩, env⟩ := s
  obtain ⟨f, sec, ok⟩ := o
  simp only at hfirst hinit
  subst hfirst hinit
  have hne : ¬ ("TERM" = "TCELL_TRUECOLOR") := by decide
  cases xt <;> simp [Init, NewScreen, setXterm, Getenv] <;> (repeat' split) <;>
    simp [setenv_apply, hne]

/-- Claim C7, evaluated on the code. Starting with TERM=vt100 and the xterm option
off: when the first construction fails, the fallback succeeds and the backend
Init fails, Init returns the error and leaves TERM=xterm-256color; when both
constructions fail, Init returns the error and leaves TERM=xterm-256color. With
the xterm option on: when the first construction fails and the rest succeeds,
Init returns no error and still leaves TERM=xterm-256color. -/
theorem init_leaves_TERM_overridden :
    Getenv demoState.env "TERM" = "vt100" ∧
    (Init demoState { first := none, second := some demoTerminal, initOk := false }).1
      = some InitError.backendInit ∧
    Getenv (Init demoState { first := none, second := some demoTerminal, initOk := false }).2.env
      "TERM" = "xterm-256color" ∧
    (Init demoState { first := none, second := none, initOk := true }).1
      = some InitError.construction ∧
    Getenv (Init demoState { first := none, second := none, initOk := true }).2.env
      "TERM" = "xterm-256color" ∧
    Getenv demoXterm.env "TERM" = "vt100" ∧
    (Init demoXterm { first := none, second := some demoTerminal, initOk := true }).1 = none ∧
    Getenv (Init demoXterm { first := none, second := some demoTerminal, initOk := true }).2.env
      "TERM" = "xterm-256color" := by
  decide

/-! ## Fake cursor: the multi-cursor variant -/

/-- On the grid, ShowFakeCursorMulti writes the rune of the cell with no combining
runes and the style DefStyle.Reverse(true). -/
theorem showFakeCursorMulti_cell (s : State) (b : Backend) (x y : Int)
    (hs : s.Screen = some b) (hin : b.inBounds x y) :
    cellAfter (ShowFakeCursorMulti s x y) x y =
      some { r := (b.GetContent x y).r, combc := [], style := s.DefStyle.Reverse true } := by
  simp only [ShowFakeCursorMulti, hs, cellAfter, cellAt, Option.map_some']
  rw [getContent_setContent_same _ _ _ _ _ _ hin]

/-- On the grid, ShowFakeCursor writes the rune and the combining runes of the
cell with the style DefStyle.Reverse(true). -/
theorem showFakeCursor_cell (s : State) (b : Backend) (x y : Int)
    (hs : s.Screen = some b) (hin : b.inBounds x y) :
    cellAfter (ShowFakeCursor s x y) x y =
      some { r := (b.GetContent x y).r, combc := (b.GetContent x y).combc,
             style := s.DefStyle.Reverse true } := by
  rw [showFakeCursor_ok s b x y hs]
  simp only [cellAfter, cellAt, Option.map_some']
  rw [getContent_cursorGrid_same _ _ _ _ _ hin]

/-- Claim C9, evaluated on the code. On the demo grid the cell (0,0) holds the
letter A with a combining acute accent. After ShowFakeCursor(0,0) the cell holds A
with the accent in reverse video; after ShowFakeCursorMulti(0,0) from the same
state it holds A without the accent: the two cells differ. -/
theorem showFakeCursorMulti_drops_combining :
    demoBackend.inBounds 0 0 ∧
    cellAfter (ShowFakeCursor demoState 0 0) 0 0
      = some { r := 65, combc := [769], style := { fg := 7, bg := 0, attrs := 4 } } ∧
    cellAfter (ShowFakeCursorMulti demoState 0 0) 0 0
      = some { r := 65, combc := [], style := { fg := 7, bg := 0, attrs := 4 } } ∧
    cellAfter (ShowFakeCursorMulti demoState 0 0) 0 0
      ≠ cellAfter (ShowFakeCursor demoState 0 0) 0 0 := by
  decide

/-! ## Fake cursor: how many cells show the cursor -/

/-- One ShowFakeCursor call at a cell that does not show the cursor style keeps
the cursor single and puts it at that cell. -/
theorem singleCursor_step (b : Backend) (l : screenCell) (d : Style) (x y : Int)
    (hP : SingleCursor b l (d.Reverse true)) (hin : b.inBounds x y)
    (hq : (b.GetContent x y).style ≠ d.Reverse true) :
    SingleCursor (cursorGrid b l d x y) (cursorSnapshot b x y) (d.Reverse true) ∧
      ((cursorGrid b l d x y).GetContent x y).style = d.Reverse true := by
  refine ⟨⟨hq, ?_⟩, by rw [getContent_cursorGrid_same b l d x y hin]⟩
  intro x' y' hin' hrev
  have hin0 : b.inBounds x' y' := (inBounds_cursorGrid b l d x y x' y').1 hin'
  by_cases hxy : (x', y') = (x, y)
  · exact hxy
  · exfalso
    by_cases hl : (x', y') = (l.x, l.y)
    · have hx : x' = l.x := congrArg Prod.fst hl
      have hy : y' = l.y := congrArg Prod.snd hl
      subst hx hy
      rw [getContent_cursorGrid_last b l d x y hin0 hxy] at hrev
      exact hP.1 hrev
    · rw [getContent_cursorGrid_other b l d x y x' y' hl hxy] at hrev
      exact hl (hP.2 x' y' hin0 hrev)

/-- A run of ShowFakeCursor calls in which no call repeats the position of the
call before it, started at a cell that does not show the cursor style, returns
and leaves the cursor style on the cell of the last call only. -/
theorem showFakeCursors_single (rev : Style) :
    ∀ (ps : List (Int × Int)) (s : State) (b : Backend), s.Screen = some b →
      s.DefStyle.Reverse true = rev → SingleCursor b s.lastCursor rev →
      (∀ p, p ∈ ps → b.inBounds p.1 p.2) → List.Chain' (fun p q => p ≠ q) ps →
      (∀ p, ps.head? = some p → (b.GetContent p.1 p.2).style ≠ rev) →
      ∃ s' b', showFakeCursors s ps = .ok s' ∧ s'.Screen = some b' ∧
        (∀ x y, b'.inBounds x y ↔ b.inBounds x y) ∧
        SingleCursor b' s'.lastCursor rev ∧
        (∀ p, ps.getLast? = some p →
          (s'.lastCursor.x, s'.lastCursor.y) = p ∧ (b'.GetContent p.1 p.2).style = rev) := by
  intro ps
  induction ps with
  | nil =>
    intro s b hs _ hP _ _ _
    exact ⟨s, b, rfl, hs, fun _ _ => Iff.rfl, hP, fun p hp => by simp at hp⟩
  | cons p rest ih =>
    intro s b hs hd hP hin hch hhd
    have hinp : b.inBounds p.1 p.2 := hin p (List.mem_cons_self p rest)
    have hq : (b.GetContent p.1 p.2).style ≠ s.DefStyle.Reverse true := by
      rw [hd]; exact hhd p rfl
    obtain ⟨hP1, hrev1⟩ := singleCursor_step b s.lastCursor s.DefStyle p.1 p.2 (hd ▸ hP) hinp hq
    rw [hd] at hP1 hrev1
    have hrun : showFakeCursors s (p :: rest) = showFakeCursors
        { s with Screen := some (cursorGrid b s.lastCursor s.DefStyle p.1 p.2)
                 lastCursor := cursorSnapshot b p.1 p.2 } rest := by
      simp only [showFakeCursors, showFakeCursor_ok s b p.1 p.2 hs]
    obtain ⟨s', b', hs', hb', hbnd, hP', hlast⟩ := ih
      { s with Screen := some (cursorGrid b s.lastCursor s.DefStyle p.1 p.2)
               lastCursor := cursorSnapshot b p.1 p.2 }
      (cursorGrid b s.lastCursor s.DefStyle p.1 p.2) rfl hd hP1
      (fun q hq' => (inBounds_cursorGrid _ _ _ _ _ _ _).2 (hin q (List.mem_cons_of_mem p hq')))
      (List.Chain'.tail hch)
      (by
        intro q hq' hstyle
        have hmem : rest = q :: rest.tail := by
          cases rest with
          | nil => simp at hq'
          | cons a t => simp at hq'; rw [hq']; rfl
        have hpq : p ≠ q := by
          rw [hmem] at hch
          exact (List.chain'_cons.1 hch).1
        have hinq : (cursorGrid b s.lastCursor s.DefStyle p.1 p.2).inBounds q.1 q.2 :=
          (inBounds_cursorGrid _ _ _ _ _ _ _).2
            (hin q (List.mem_cons_of_mem p (by rw [hmem]; exact List.mem_cons_self _ _)))
        have := hP1.2 q.1 q.2 hinq hstyle
        exact hpq this.symm)
    refine ⟨s', b', hrun.trans hs', hb', fun x y => (hbnd x y).trans
      (inBounds_cursorGrid _ _ _ _ _ _ _), hP', ?_⟩
    intro q hq'
    cases rest with
    | nil =>
      simp only [List.getLast?_singleton, Option.some.injEq] at hq'
      subst hq'
      simp only [showFakeCursors] at hs'
      cases hs'
      simp only [Option.some.injEq] at hb'
      subst hb'
      exact ⟨rfl, hrev1⟩
    | cons a t =>
      rw [List.getLast?_cons_cons] at hq'
      exact hlast q hq'

/-- When no cell of the grid and not lastCursor has the style DefStyle.Reverse(true),
every non-empty run of ShowFakeCursor calls at positions on the grid in which no
call repeats the position of the call before it returns, and afterwards exactly
one cell, that of the last call, has the style DefStyle.Reverse(true). -/
theorem showFakeCursors_one_cursor_when_moving (s : State) (b : Backend)
    (ps : List (Int × Int)) (last : Int × Int) (hs : s.Screen = some b)
    (hgrid : ∀ x y, b.inBounds x y → (b.GetContent x y).style ≠ s.DefStyle.Reverse true)
    (hl : s.lastCursor.style ≠ s.DefStyle.Reverse true)
    (hin : ∀ p, p ∈ ps → b.inBounds p.1 p.2) (hch : List.Chain' (fun p q => p ≠ q) ps)
    (hlast : ps.getLast? = some last) :
    ∃ s' b', showFakeCursors s ps = .ok s' ∧ s'.Screen = some b' ∧
      ∀ x y, b'.inBounds x y →
        ((b'.GetContent x y).style = s.DefStyle.Reverse true ↔ (x, y) = last) := by
  obtain ⟨s', b', hrun, hb', _, hP', hfin⟩ := showFakeCursors_single (s.DefStyle.Reverse true)
    ps s b hs rfl ⟨hl, fun x y hxy h => absurd h (hgrid x y hxy)⟩ hin hch
    (fun p hp => hgrid p.1 p.2 (hin p (List.mem_of_mem_head? hp)))
  obtain ⟨hpos, hrev⟩ := hfin last hlast
  refine ⟨s', b', hrun, hb', fun x y hxy => ⟨fun h => ?_, fun h => ?_⟩⟩
  · rw [← hpos]; exact hP'.2 x y hxy h
  · have hx : x = last.1 := congrArg Prod.fst h
    have hy : y = last.2 := congrArg Prod.snd h
    rw [hx, hy]; exact hrev

theorem demoBackend_plain (x y : Int) :
    (demoBackend.GetContent x y).style ≠ demoState.DefStyle.Reverse true := by
  unfold Backend.GetContent demoBackend
  split
  · simp only
    split <;> decide
  · decide

/-- Claim C8, evaluated on the code. On the demo grid no cell and not lastCursor
has the style DefStyle.Reverse(true). After ShowFakeCursor at (1,0), again at
(1,0) and then at (2,1), all on the grid, two cells have that style: (2,1), the
position of the last call, and (1,0), which the last call restored from a
snapshot taken while the cursor was already drawn there. -/
theorem showFakeCursor_repeat_leaves_two_cursors :
    (∀ x y, (demoBackend.GetContent x y).style ≠ demoState.DefStyle.Reverse true) ∧
    demoState.lastCursor.style ≠ demoState.DefStyle.Reverse true ∧
    demoBackend.inBounds 1 0 ∧ demoBackend.inBounds 2 1 ∧
    (cellAfter (showFakeCursors demoState [(1, 0), (1, 0), (2, 1)]) 2 1).map (fun c => c.style)
      = some (demoState.DefStyle.Reverse true) ∧
    (cellAfter (showFakeCursors demoState [(1, 0), (1, 0), (2, 1)]) 1 0).map (fun c => c.style)
      = some (demoState.DefStyle.Reverse true) :=
  ⟨demoBackend_plain, by decide, by decide, by decide, by decide, by decide⟩

/-- The same three calls with a different cell in the middle leave one cursor:
the cell (1,0) is back to its plain style. -/
theorem showFakeCursor_moving_leaves_one_cursor :
    (cellAfter (showFakeCursors demoState [(1, 0), (0, 1), (2, 1)]) 2 1).map (fun c => c.style)
      = some (demoState.DefStyle.Reverse true) ∧
    cellAfter (showFakeCursors demoState [(1, 0), (0, 1), (2, 1)]) 1 0
      = some (demoBackend.GetContent 1 0) ∧
    cellAfter (showFakeCursors demoState [(1, 0), (0, 1), (2, 1)]) 0 1
      = some (demoBackend.GetContent 0 1) := by
  decide

/-- Instance of the single-cursor statement on the demo grid. -/
theorem showFakeCursors_one_cursor_when_moving_witness :
    ∃ s' b', showFakeCursors demoState [(1, 0), (0, 1), (2, 1)] = .ok s' ∧
      s'.Screen = some b' ∧
      ∀ x y, b'.inBounds x y →
        ((b'.GetContent x y).style = demoState.DefStyle.Reverse true ↔ (x, y) = (2, 1)) :=
  showFakeCursors_one_cursor_when_moving demoState demoBackend [(1, 0), (0, 1), (2, 1)] (2, 1)
    rfl (fun x y _ => demoBackend_plain x y) (by decide)
    (by intro p hp; simp at hp; rcases hp with h | h | h <;> subst h <;> decide)
    (by simp [List.Chain']) rfl

end screen
